import Mathlib

/-!
Verification of the boids update kernel (src/boids.rs) against its
natural-language specification.  Floating-point values are modelled as
real numbers; the two platform random draws per agent (bounce factor and
jitter angle) are passed in as explicit parameters.
-/

open Classical

/-- Two-dimensional vector, mirroring `vec2.rs::Vec2`. -/
structure Vec2 where
  x : ℝ
  y : ℝ

instance : Add Vec2 := ⟨fun a b => ⟨a.x + b.x, a.y + b.y⟩⟩

instance : Sub Vec2 := ⟨fun a b => ⟨a.x - b.x, a.y - b.y⟩⟩

instance : HMul Vec2 ℝ Vec2 := ⟨fun v s => ⟨v.x * s, v.y * s⟩⟩

/-- Euclidean norm, mirroring `Vec2::length`. -/
noncomputable def Vec2.length (v : Vec2) : ℝ :=
  Real.sqrt (v.x * v.x + v.y * v.y)

/-- Mirrors `Vec2::normalized`: divide by the length when it is positive. -/
noncomputable def Vec2.normalized (v : Vec2) : Vec2 :=
  if 0 < v.length then ⟨v.x / v.length, v.y / v.length⟩ else v

/-- Mirrors `clamp_speed_progressive` from boids.rs: blend 10% toward the
rescaled velocity below `min_speed`, then (recomputing the speed) blend 10%
toward the rescaled velocity above `max_speed`. -/
noncomputable def clamp_speed_progressive (v0 : Vec2)
    (min_speed max_speed accel decel : ℝ) : Vec2 :=
  let v1 :=
    if v0.length < min_speed then
      v0 * (1 - accel) + (v0 * (min_speed / max v0.length (1e-6))) * accel
    else v0
  if max_speed < v1.length then
    v1 * (1 - decel) + (v1 * (max_speed / v1.length)) * decel
  else v1

/-- Internal boid state, mirroring `boids.rs::BoidState`. -/
structure BoidState where
  x : ℝ
  y : ℝ
  vx : ℝ
  vy : ℝ
  flags : ℕ

instance : Inhabited BoidState := ⟨⟨0, 0, 0, 0, 0⟩⟩

/-- Bit 0 of the flags field: the boid is inside the boundary margin. -/
def BoidState.IN_MARGIN : ℕ := 1

/-- Per-call configuration, mirroring `boids.rs::SimpleConfig`. -/
structure SimpleConfig where
  separation_radius : ℝ
  alignment_radius : ℝ
  cohesion_radius : ℝ
  separation_strength : ℝ
  alignment_strength : ℝ
  cohesion_strength : ℝ
  max_speed : ℝ
  max_force : ℝ
  boundary_margin : ℝ
  boundary_strength : ℝ
  world_width : ℝ
  world_height : ℝ

/-- The margin condition tested at the top of `update_boid_state` (and again
on the new position for the output flag): within `boundary_margin` of any
wall, per the four strict comparisons of the source. -/
def inMargin (x y : ℝ) (cfg : SimpleConfig) : Prop :=
  x < cfg.boundary_margin ∨ x > cfg.world_width - cfg.boundary_margin ∨
  y < cfg.boundary_margin ∨ y > cfg.world_height - cfg.boundary_margin

/-- The hard-bounce trigger: the position lies strictly outside
`[0, world_width] × [0, world_height]` on some axis. -/
def outOfWorld (b : BoidState) (cfg : SimpleConfig) : Prop :=
  b.x < 0 ∨ b.x > cfg.world_width ∨ b.y < 0 ∨ b.y > cfg.world_height

/-- Result type of the boundary decision, mirrors `boids.rs::BoundaryResult`. -/
inductive BoundaryResult where
  | Force (fx fy : ℝ)
  | OverrideVelocity (vx vy : ℝ)
  | Bounce (x y vx vy : ℝ)

/-- Mirrors `handle_hard_bounce`: clamp each out-of-bounds axis to the
boundary and reflect that velocity component with the nudge boost; returns
`none` when neither axis is out of bounds. -/
noncomputable def handle_hard_bounce (b : BoidState) (cfg : SimpleConfig)
    (nudge rng : ℝ) : Option (ℝ × ℝ × ℝ × ℝ) :=
  let xr : ℝ × ℝ × Bool :=
    if b.x < 0 then (0, |b.vx| + nudge * (0.8 + 0.4 * rng), true)
    else if b.x > cfg.world_width then
      (cfg.world_width, -|b.vx| - nudge * (0.8 + 0.4 * rng), true)
    else (b.x, b.vx, false)
  let yr : ℝ × ℝ × Bool :=
    if b.y < 0 then (0, |b.vy| + nudge * (0.8 + 0.4 * rng), true)
    else if b.y > cfg.world_height then
      (cfg.world_height, -|b.vy| - nudge * (0.8 + 0.4 * rng), true)
    else (b.y, b.vy, false)
  if xr.2.2 || yr.2.2 then some (xr.1, yr.1, xr.2.1, yr.2.1) else none

/-- Steepened smoothstep from `boundary_forces` (Rust `clamp(0,1)` is
`min (max · lo) hi`). -/
noncomputable def smoothstep (edge0 edge1 x : ℝ) : ℝ :=
  let t := min (max ((x - edge0) / (edge1 - edge0)) 0) 1
  let t2 := t * t
  t2 * t2 * (6 * t - 15 * t2 + 10)

/-- Accumulator threaded through the four wall checks of `boundary_forces`. -/
structure WallAcc where
  fx : ℝ
  fy : ℝ
  maxf : ℝ
  wx : ℝ
  wy : ℝ

/-- Left wall check of `boundary_forces`. -/
noncomputable def wallLeft (b : BoidState) (cfg : SimpleConfig) (acc : WallAcc) :
    WallAcc :=
  if b.x < cfg.boundary_margin then
    let d := max (cfg.boundary_margin - b.x) 0 / cfg.boundary_margin
    let s := smoothstep 0 1 d
    let f := min (30 * 0.3 * cfg.boundary_strength * s) (4 * cfg.boundary_strength)
    let acc1 := if acc.maxf < f then { acc with maxf := f, wx := 1, wy := 0 } else acc
    { acc1 with fx := acc1.fx + f }
  else acc

/-- Right wall check of `boundary_forces`. -/
noncomputable def wallRight (b : BoidState) (cfg : SimpleConfig) (acc : WallAcc) :
    WallAcc :=
  if b.x > cfg.world_width - cfg.boundary_margin then
    let d := max (b.x - (cfg.world_width - cfg.boundary_margin)) 0 / cfg.boundary_margin
    let s := smoothstep 0 1 d
    let f := min (30 * 0.3 * cfg.boundary_strength * s) (4 * cfg.boundary_strength)
    let acc1 := if acc.maxf < f then { acc with maxf := f, wx := -1, wy := 0 } else acc
    { acc1 with fx := acc1.fx - f }
  else acc

/-- Top wall check of `boundary_forces`. -/
noncomputable def wallTop (b : BoidState) (cfg : SimpleConfig) (acc : WallAcc) :
    WallAcc :=
  if b.y < cfg.boundary_margin then
    let d := max (cfg.boundary_margin - b.y) 0 / cfg.boundary_margin
    let s := smoothstep 0 1 d
    let f := min (30 * 0.3 * cfg.boundary_strength * s) (4 * cfg.boundary_strength)
    let acc1 := if acc.maxf < f then { acc with maxf := f, wx := 0, wy := 1 } else acc
    { acc1 with fy := acc1.fy + f }
  else acc

/-- Bottom wall check of `boundary_forces`. -/
noncomputable def wallBottom (b : BoidState) (cfg : SimpleConfig) (acc : WallAcc) :
    WallAcc :=
  if b.y > cfg.world_height - cfg.boundary_margin then
    let d := max (b.y - (cfg.world_height - cfg.boundary_margin)) 0 / cfg.boundary_margin
    let s := smoothstep 0 1 d
    let f := min (30 * 0.3 * cfg.boundary_strength * s) (4 * cfg.boundary_strength)
    let acc1 := if acc.maxf < f then { acc with maxf := f, wx := 0, wy := -1 } else acc
    { acc1 with fy := acc1.fy - f }
  else acc

/-- Mirrors `boundary_forces`: total margin force, strongest wall direction and
its raw strength, accumulated over the four walls in order
left, right, top, bottom. -/
noncomputable def boundary_forces (b : BoidState) (cfg : SimpleConfig) :
    (ℝ × ℝ) × (ℝ × ℝ) × ℝ :=
  let a := wallBottom b cfg (wallTop b cfg (wallRight b cfg (wallLeft b cfg ⟨0, 0, 0, 0, 0⟩)))
  ((a.fx, a.fy), (a.wx, a.wy), a.maxf)

/-- Mirrors `boundary_avoidance_simple`: a hard bounce takes precedence,
otherwise the accumulated margin force is returned (velocity is never
overridden here). -/
noncomputable def boundary_avoidance_simple (b : BoidState) (cfg : SimpleConfig)
    (_min_speed rng : ℝ) : BoundaryResult :=
  let bf := boundary_forces b cfg
  match handle_hard_bounce b cfg 5 rng with
  | some q => BoundaryResult.Bounce q.1 q.2.1 q.2.2.1 q.2.2.2
  | none => BoundaryResult.Force bf.1.1 bf.1.2

/-- Squared distance between two boid positions, as computed inside the three
neighbor loops (`dx*dx + dy*dy`). -/
def dsq (b o : BoidState) : ℝ :=
  (b.x - o.x) * (b.x - o.x) + (b.y - o.y) * (b.y - o.y)

/-- Loop body of `separation`: accumulate inverse-distance-weighted unit
vectors away from each neighbor within the radius, skipping index `bi`;
`j` is the index of the head of the remaining list. -/
noncomputable def sepLoop (boid : BoidState) (bi : ℕ) (radius : ℝ) :
    ℕ → List BoidState → ℝ × ℝ × ℕ
  | _, [] => (0, 0, 0)
  | j, other :: rest =>
    let acc := sepLoop boid bi radius (j + 1) rest
    if bi = j then acc
    else if 0 < dsq boid other ∧ dsq boid other < radius * radius then
      let dist := Real.sqrt (dsq boid other)
      (acc.1 + (boid.x - other.x) / dist * (1 / dist),
       acc.2.1 + (boid.y - other.y) / dist * (1 / dist), acc.2.2 + 1)
    else acc

/-- Mirrors `separation`: average the accumulated steer when any neighbor
was counted. -/
noncomputable def separation (boid_idx : ℕ) (states : List BoidState)
    (radius : ℝ) : ℝ × ℝ :=
  let boid := states.getD boid_idx default
  let r := sepLoop boid boid_idx radius 0 states
  if 0 < r.2.2 then (r.1 / (r.2.2 : ℝ), r.2.1 / (r.2.2 : ℝ)) else (r.1, r.2.1)

/-- Loop body of `alignment`: sum neighbor velocities within the radius. -/
noncomputable def alignLoop (boid : BoidState) (bi : ℕ) (radius : ℝ) :
    ℕ → List BoidState → ℝ × ℝ × ℕ
  | _, [] => (0, 0, 0)
  | j, other :: rest =>
    let acc := alignLoop boid bi radius (j + 1) rest
    if bi = j then acc
    else if 0 < dsq boid other ∧ dsq boid other < radius * radius then
      (acc.1 + other.vx, acc.2.1 + other.vy, acc.2.2 + 1)
    else acc

/-- Mirrors `alignment`: average neighbor velocity minus own velocity, or
zero without neighbors. -/
noncomputable def alignment (boid_idx : ℕ) (states : List BoidState)
    (radius : ℝ) : ℝ × ℝ :=
  let boid := states.getD boid_idx default
  let r := alignLoop boid boid_idx radius 0 states
  if 0 < r.2.2 then
    (r.1 / (r.2.2 : ℝ) - boid.vx, r.2.1 / (r.2.2 : ℝ) - boid.vy)
  else (0, 0)

/-- Loop body of `cohesion`: sum neighbor positions within the radius. -/
noncomputable def cohLoop (boid : BoidState) (bi : ℕ) (radius : ℝ) :
    ℕ → List BoidState → ℝ × ℝ × ℕ
  | _, [] => (0, 0, 0)
  | j, other :: rest =>
    let acc := cohLoop boid bi radius (j + 1) rest
    if bi = j then acc
    else if 0 < dsq boid other ∧ dsq boid other < radius * radius then
      (acc.1 + other.x, acc.2.1 + other.y, acc.2.2 + 1)
    else acc

/-- Mirrors `cohesion`: unit vector toward the average neighbor position
minus own velocity, with zero results for no neighbors or a coincident
average. -/
noncomputable def cohesion (boid_idx : ℕ) (states : List BoidState)
    (radius : ℝ) : ℝ × ℝ :=
  let boid := states.getD boid_idx default
  let r := cohLoop boid boid_idx radius 0 states
  if 0 < r.2.2 then
    let desired_x := r.1 / (r.2.2 : ℝ) - boid.x
    let desired_y := r.2.1 / (r.2.2 : ℝ) - boid.y
    let dist := Real.sqrt (desired_x * desired_x + desired_y * desired_y)
    if 0 < dist then
      (desired_x / dist - boid.vx, desired_y / dist - boid.vy)
    else (0, 0)
  else (0, 0)

/-- Mirrors `limit_magnitude`: rescale to `max_mag` when the squared magnitude
exceeds `max_mag²`. -/
noncomputable def limit_magnitude (x y max_mag : ℝ) : ℝ × ℝ :=
  if max_mag * max_mag < x * x + y * y then
    let mag := Real.sqrt (x * x + y * y)
    (x / mag * max_mag, y / mag * max_mag)
  else (x, y)

/-- The integrated, pre-clamp velocity of the deep-margin override path:
previous velocity plus the center-pull force `10 * max_force` times `dt`
(the force direction is the normalized vector from the position to the world
center). -/
noncomputable def marginPreVel (b : BoidState) (cfg : SimpleConfig) (dt : ℝ) : Vec2 :=
  let center : Vec2 := ⟨0.5 * cfg.world_width, 0.5 * cfg.world_height⟩
  let pos : Vec2 := ⟨b.x, b.y⟩
  let dir := (center - pos).normalized
  let force := dir * (10 * cfg.max_force)
  (⟨b.vx, b.vy⟩ : Vec2) + force * dt

/-- The deep-margin override block of `update_boid_state` (the early return
taken when the previous position satisfies the margin condition): pull toward
the world center with force `10 * max_force`, progressively speed-clamp,
advance, and set the `IN_MARGIN` flag. -/
noncomputable def marginOverrideStep (b : BoidState) (cfg : SimpleConfig)
    (dt min_speed : ℝ) : BoidState :=
  let flags := Nat.lor 0 BoidState.IN_MARGIN
  let pos : Vec2 := ⟨b.x, b.y⟩
  let vel := clamp_speed_progressive (marginPreVel b cfg dt) min_speed cfg.max_speed 0.1 0.1
  let new_pos := pos + vel * dt
  ⟨new_pos.x, new_pos.y, vel.x, vel.y, flags⟩

/-- The integrated, pre-clamp velocity of the normal flocking path: previous
velocity plus the magnitude-limited combined force times `dt`, plus the jitter
vector (unit vector at angle `θ` scaled by the jitter amplitude). -/
noncomputable def flockPreVel (i : ℕ) (b : BoidState) (states : List BoidState)
    (cfg : SimpleConfig) (dt jitter θ fx fy : ℝ) : Vec2 :=
  let sep := separation i states cfg.separation_radius
  let ali := alignment i states cfg.alignment_radius
  let coh := cohesion i states cfg.cohesion_radius
  let force_x := sep.1 * cfg.separation_strength + ali.1 * cfg.alignment_strength +
    coh.1 * cfg.cohesion_strength + fx
  let force_y := sep.2 * cfg.separation_strength + ali.2 * cfg.alignment_strength +
    coh.2 * cfg.cohesion_strength + fy
  let lf := limit_magnitude force_x force_y cfg.max_force
  let vel0 : Vec2 := (⟨b.vx, b.vy⟩ : Vec2) + (⟨lf.1, lf.2⟩ : Vec2) * dt
  vel0 + (⟨Real.cos θ * jitter, Real.sin θ * jitter⟩ : Vec2)

/-- The normal flocking block of `update_boid_state` (taken when the boundary
decision is `Force fx fy`): combine the three weighted flocking forces with
the boundary force, limit to `max_force`, integrate, add jitter, progressively
speed-clamp, advance, and recompute the `IN_MARGIN` flag on the new
position. -/
noncomputable def flockStep (i : ℕ) (b : BoidState) (states : List BoidState)
    (cfg : SimpleConfig) (dt min_speed jitter θ fx fy : ℝ) : BoidState :=
  let vel := clamp_speed_progressive (flockPreVel i b states cfg dt jitter θ fx fy)
    min_speed cfg.max_speed 0.1 0.1
  let new_pos := (⟨b.x, b.y⟩ : Vec2) + vel * dt
  let fl := if inMargin new_pos.x new_pos.y cfg then Nat.lor 0 BoidState.IN_MARGIN else 0
  ⟨new_pos.x, new_pos.y, vel.x, vel.y, fl⟩

/-- Mirrors `update_boid_state`: the deep-margin override is checked first on
the previous position; otherwise the boundary decision selects a hard bounce,
a velocity override, or the normal flocking step.  `rngB` is the per-agent
random draw consumed by the boundary decision, `θ` the random jitter angle. -/
noncomputable def update_boid_state (i : ℕ) (b : BoidState)
    (states : List BoidState) (cfg : SimpleConfig)
    (dt min_speed jitter rngB θ : ℝ) : BoidState :=
  if inMargin b.x b.y cfg then marginOverrideStep b cfg dt min_speed
  else
    match boundary_avoidance_simple b cfg min_speed rngB with
    | BoundaryResult.Bounce x y vx vy => ⟨x, y, vx, vy, 0⟩
    | BoundaryResult.OverrideVelocity vx vy =>
        ⟨b.x + vx * dt, b.y + vy * dt, vx, vy, 0⟩
    | BoundaryResult.Force fx fy => flockStep i b states cfg dt min_speed jitter θ fx fy

/-- The internal states built from the flat input buffer (stride 4). -/
def mkStates (boids_data : List ℝ) : List BoidState :=
  (List.range (boids_data.length / 4)).map fun i =>
    ⟨boids_data.getD (i * 4) 0, boids_data.getD (i * 4 + 1) 0,
     boids_data.getD (i * 4 + 2) 0, boids_data.getD (i * 4 + 3) 0, 0⟩

/-- Mirrors `update_boids_flat_impl`: read stride-4 agents, update each one
against the unmodified frame snapshot, and emit stride-5 output
(x, y, vx, vy, flags); `rngB` and `rngJ` supply the per-agent random draws. -/
noncomputable def update_boids_flat_impl (boids_data : List ℝ)
    (separation_radius alignment_radius cohesion_radius separation_strength
     alignment_strength cohesion_strength max_speed max_force boundary_margin
     boundary_strength world_width world_height dt min_speed jitter : ℝ)
    (rngB rngJ : ℕ → ℝ) : List ℝ :=
  let boid_count := boids_data.length / 4
  if boid_count = 0 then [] else
  let states := mkStates boids_data
  let config : SimpleConfig :=
    ⟨separation_radius, alignment_radius, cohesion_radius, separation_strength,
     alignment_strength, cohesion_strength, max_speed, max_force,
     boundary_margin, boundary_strength, world_width, world_height⟩
  let updated := (List.range boid_count).map fun i =>
    update_boid_state i (states.getD i default) states config dt min_speed jitter
      (rngB i) (rngJ i)
  updated.flatMap fun s => [s.x, s.y, s.vx, s.vy, (s.flags : ℝ)]

/-- Mirrors `create_boids_flat` from lib.rs: four random draws per agent
(position x, position y, heading angle, speed), emitted with stride 4. -/
noncomputable def create_boids_flat (count : ℕ)
    (min_x max_x min_y max_y max_speed : ℝ) (rng : ℕ → ℝ) : List ℝ :=
  (List.range count).flatMap fun i =>
    let x := min_x + rng (4 * i) * (max_x - min_x)
    let y := min_y + rng (4 * i + 1) * (max_y - min_y)
    let angle := rng (4 * i + 2) * (2 * Real.pi)
    let speed := rng (4 * i + 3) * max_speed
    [x, y, Real.cos angle * speed, Real.sin angle * speed]

/-- Concrete configuration: margin 5, zero strengths, zero max force,
speed range handled by the caller (max speed 100), world 100 × 100. -/
def cfgC1 : SimpleConfig := ⟨0, 0, 0, 0, 0, 0, 100, 0, 5, 0, 100, 100⟩

/-- Concrete configuration: margin 10, max force 1, world 100 × 100. -/
def cfgC2 : SimpleConfig := ⟨0, 0, 0, 0, 0, 0, 100, 1, 10, 0, 100, 100⟩

/-- Concrete configuration with a negative margin (-10), under which the
deep-margin condition can fail for an out-of-bounds agent. -/
def cfgNeg : SimpleConfig := ⟨0, 0, 0, 0, 0, 0, 100, 1, -10, 0, 100, 100⟩

/-- Concrete configuration: radii 1, zero strengths, margin 10, max force 1,
boundary strength 1, world 100 × 100. -/
def cfgC4 : SimpleConfig := ⟨1, 1, 1, 0, 0, 0, 100, 1, 10, 1, 100, 100⟩

/-- Concrete random stream: first draw 1/20, second draw 1/2, all later
draws 0. -/
noncomputable def rngC7 : ℕ → ℝ := fun n => if n = 0 then 1 / 20 else if n = 1 then 1 / 2 else 0

theorem Vec2.add_def (a b : Vec2) : a + b = ⟨a.x + b.x, a.y + b.y⟩ := rfl

theorem Vec2.sub_def (a b : Vec2) : a - b = ⟨a.x - b.x, a.y - b.y⟩ := rfl

theorem Vec2.mul_def (v : Vec2) (s : ℝ) : v * s = ⟨v.x * s, v.y * s⟩ := rfl

theorem Vec2.length_mk (a b : ℝ) :
    (Vec2.mk a b).length = Real.sqrt (a * a + b * b) := rfl

/-- Evaluation helper: the length of a vector is `c` when `c * c` equals the
sum of squares and `c` is nonnegative. -/
theorem Vec2.length_eval {a b c : ℝ} (hc : 0 ≤ c) (h : c * c = a * a + b * b) :
    (Vec2.mk a b).length = c := by
  rw [Vec2.length_mk, ← h, Real.sqrt_mul_self hc]

/-- If the speed is already in `[min_speed, max_speed]`, neither blend of the
progressive clamp fires and the vector is returned unchanged. -/
theorem clamp_speed_progressive_of_mem (v : Vec2) (minS maxS accel decel : ℝ)
    (h1 : ¬ v.length < minS) (h2 : ¬ maxS < v.length) :
    clamp_speed_progressive v minS maxS accel decel = v := by
  simp only [clamp_speed_progressive, if_neg h1, if_neg h2]

/-- C8: the progressive speed clamp is idempotent at the target: for every
velocity whose magnitude already lies within `[min_speed, max_speed]`,
`clamp_speed_progressive v min_speed max_speed 0.1 0.1` returns `v`
unchanged (neither the floor blend nor the ceiling blend triggers). -/
theorem clamp_idempotent_in_range (v : Vec2) (min_speed max_speed : ℝ)
    (h1 : min_speed ≤ v.length) (h2 : v.length ≤ max_speed) :
    clamp_speed_progressive v min_speed max_speed 0.1 0.1 = v :=
  clamp_speed_progressive_of_mem v min_speed max_speed 0.1 0.1
    (not_lt.mpr h1) (not_lt.mpr h2)

/-- The length of the concrete vector (3, 4) is 5. -/
theorem length_three_four : (Vec2.mk 3 4).length = 5 :=
  Vec2.length_eval (by norm_num) (by norm_num)

/-- Witness for C8 at the concrete vector (3,4) with bounds [1, 10]. -/
theorem clamp_idempotent_in_range_witness :
    clamp_speed_progressive ⟨3, 4⟩ 1 10 0.1 0.1 = ⟨3, 4⟩ :=
  clamp_idempotent_in_range ⟨3, 4⟩ 1 10
    (by rw [length_three_four]; norm_num)
    (by rw [length_three_four]; norm_num)

/-- C10: `clamp_speed_progressive` maps the zero vector to the zero vector for
every `min_speed` and `max_speed`: both blends only rescale the existing
vector, so a stationary velocity stays exactly (0, 0) and the min-speed floor
never accelerates it. -/
theorem clamp_zero_vector (min_speed max_speed accel decel : ℝ) :
    clamp_speed_progressive ⟨0, 0⟩ min_speed max_speed accel decel = ⟨0, 0⟩ := by
  simp only [clamp_speed_progressive, Vec2.mul_def, Vec2.add_def]
  norm_num

/-- The separation loop contributes nothing when no element of the list lies
at squared distance strictly between 0 and the squared radius. -/
theorem sepLoop_eq_zero (boid : BoidState) (bi : ℕ) (radius : ℝ)
    (l : List BoidState)
    (h : ∀ o ∈ l, ¬ (0 < dsq boid o ∧ dsq boid o < radius * radius)) :
    ∀ j, sepLoop boid bi radius j l = (0, 0, 0) := by
  induction l with
  | nil => intro j; rfl
  | cons a t ih =>
    intro j
    have ha := h a (List.mem_cons_self a t)
    have ht : ∀ o ∈ t, ¬ (0 < dsq boid o ∧ dsq boid o < radius * radius) :=
      fun o ho => h o (List.mem_cons_of_mem a ho)
    simp only [sepLoop, ih ht, if_neg ha, ite_self]

/-- The alignment loop contributes nothing without neighbors in range. -/
theorem alignLoop_eq_zero (boid : BoidState) (bi : ℕ) (radius : ℝ)
    (l : List BoidState)
    (h : ∀ o ∈ l, ¬ (0 < dsq boid o ∧ dsq boid o < radius * radius)) :
    ∀ j, alignLoop boid bi radius j l = (0, 0, 0) := by
  induction l with
  | nil => intro j; rfl
  | cons a t ih =>
    intro j
    have ha := h a (List.mem_cons_self a t)
    have ht : ∀ o ∈ t, ¬ (0 < dsq boid o ∧ dsq boid o < radius * radius) :=
      fun o ho => h o (List.mem_cons_of_mem a ho)
    simp only [alignLoop, ih ht, if_neg ha, ite_self]

/-- The cohesion loop contributes nothing without neighbors in range. -/
theorem cohLoop_eq_zero (boid : BoidState) (bi : ℕ) (radius : ℝ)
    (l : List BoidState)
    (h : ∀ o ∈ l, ¬ (0 < dsq boid o ∧ dsq boid o < radius * radius)) :
    ∀ j, cohLoop boid bi radius j l = (0, 0, 0) := by
  induction l with
  | nil => intro j; rfl
  | cons a t ih =>
    intro j
    have ha := h a (List.mem_cons_self a t)
    have ht : ∀ o ∈ t, ¬ (0 < dsq boid o ∧ dsq boid o < radius * radius) :=
      fun o ho => h o (List.mem_cons_of_mem a ho)
    simp only [cohLoop, ih ht, if_neg ha, ite_self]

/-- Separation returns (0,0) without neighbors in range. -/
theorem separation_eq_zero (bi : ℕ) (states : List BoidState) (radius : ℝ)
    (h : ∀ o ∈ states,
      ¬ (0 < dsq (states.getD bi default) o ∧
         dsq (states.getD bi default) o < radius * radius)) :
    separation bi states radius = (0, 0) := by
  simp only [separation, sepLoop_eq_zero _ _ _ _ h 0]
  norm_num

/-- Alignment returns (0,0) without neighbors in range. -/
theorem alignment_eq_zero (bi : ℕ) (states : List BoidState) (radius : ℝ)
    (h : ∀ o ∈ states,
      ¬ (0 < dsq (states.getD bi default) o ∧
         dsq (states.getD bi default) o < radius * radius)) :
    alignment bi states radius = (0, 0) := by
  simp only [alignment, alignLoop_eq_zero _ _ _ _ h 0]
  norm_num

/-- Cohesion returns (0,0) without neighbors in range. -/
theorem cohesion_eq_zero (bi : ℕ) (states : List BoidState) (radius : ℝ)
    (h : ∀ o ∈ states,
      ¬ (0 < dsq (states.getD bi default) o ∧
         dsq (states.getD bi default) o < radius * radius)) :
    cohesion bi states radius = (0, 0) := by
  simp only [cohesion, cohLoop_eq_zero _ _ _ _ h 0]
  norm_num

/-- C9: for every agent that has zero neighbors within the separation,
alignment and cohesion radii respectively (no other agent at squared distance
strictly between 0 and the squared radius), the three force functions each
return exactly (0, 0). -/
theorem no_neighbors_zero_forces (bi : ℕ) (states : List BoidState)
    (r1 r2 r3 : ℝ)
    (h1 : ∀ o ∈ states,
      ¬ (0 < dsq (states.getD bi default) o ∧
         dsq (states.getD bi default) o < r1 * r1))
    (h2 : ∀ o ∈ states,
      ¬ (0 < dsq (states.getD bi default) o ∧
         dsq (states.getD bi default) o < r2 * r2))
    (h3 : ∀ o ∈ states,
      ¬ (0 < dsq (states.getD bi default) o ∧
         dsq (states.getD bi default) o < r3 * r3)) :
    separation bi states r1 = (0, 0) ∧ alignment bi states r2 = (0, 0) ∧
      cohesion bi states r3 = (0, 0) :=
  ⟨separation_eq_zero bi states r1 h1, alignment_eq_zero bi states r2 h2,
   cohesion_eq_zero bi states r3 h3⟩

/-- Witness for C9: two agents 100 apart, all radii 1. -/
theorem no_neighbors_zero_forces_witness :
    separation 0 [⟨0, 0, 1, 0, 0⟩, ⟨100, 0, 0, 0, 0⟩] 1 = (0, 0) ∧
    alignment 0 [⟨0, 0, 1, 0, 0⟩, ⟨100, 0, 0, 0, 0⟩] 1 = (0, 0) ∧
    cohesion 0 [⟨0, 0, 1, 0, 0⟩, ⟨100, 0, 0, 0, 0⟩] 1 = (0, 0) := by
  have h : ∀ o ∈ [(⟨0, 0, 1, 0, 0⟩ : BoidState), ⟨100, 0, 0, 0, 0⟩],
      ¬ (0 < dsq (([(⟨0, 0, 1, 0, 0⟩ : BoidState), ⟨100, 0, 0, 0, 0⟩]).getD 0 default) o ∧
         dsq (([(⟨0, 0, 1, 0, 0⟩ : BoidState), ⟨100, 0, 0, 0, 0⟩]).getD 0 default) o < 1 * 1) := by
    intro o ho
    rcases List.mem_cons.mp ho with h0 | ho
    · subst h0; simp [dsq]
    · rcases List.mem_cons.mp ho with h0 | ho
      · subst h0; simp [dsq]; norm_num
      · simp at ho
  exact no_neighbors_zero_forces 0 _ 1 1 1 h h h

/-- When the margin condition fails, none of the four wall checks of
`boundary_forces` fires, so the accumulated force, wall direction and
strongest wall strength are all zero. -/
theorem boundary_forces_of_not_inMargin (b : BoidState) (cfg : SimpleConfig)
    (h : ¬ inMargin b.x b.y cfg) :
    boundary_forces b cfg = ((0, 0), (0, 0), 0) := by
  unfold inMargin at h
  push_neg at h
  obtain ⟨h1, h2, h3, h4⟩ := h
  rw [boundary_forces, wallLeft, if_neg (not_lt.mpr h1),
    wallRight, if_neg (not_lt.mpr h2), wallTop, if_neg (not_lt.mpr h3),
    wallBottom, if_neg (not_lt.mpr h4)]

/-- When neither axis is out of the world, `handle_hard_bounce` returns
`none`. -/
theorem handle_hard_bounce_none (b : BoidState) (cfg : SimpleConfig)
    (nudge rng : ℝ) (h : ¬ outOfWorld b cfg) :
    handle_hard_bounce b cfg nudge rng = none := by
  unfold outOfWorld at h
  push_neg at h
  obtain ⟨h1, h2, h3, h4⟩ := h
  simp only [handle_hard_bounce, if_neg (not_lt.mpr h1), if_neg (not_lt.mpr h2),
    if_neg (not_lt.mpr h3), if_neg (not_lt.mpr h4)]
  simp

/-- With a nonnegative margin, a position that fails the margin condition is
inside the world, so the hard bounce cannot fire. -/
theorem not_outOfWorld_of_not_inMargin (b : BoidState) (cfg : SimpleConfig)
    (hm : 0 ≤ cfg.boundary_margin) (h : ¬ inMargin b.x b.y cfg) :
    ¬ outOfWorld b cfg := by
  unfold inMargin at h
  push_neg at h
  obtain ⟨h1, h2, h3, h4⟩ := h
  unfold outOfWorld
  push_neg
  refine ⟨le_trans hm h1, le_trans h2 (by linarith), le_trans hm h3,
    le_trans h4 (by linarith)⟩

/-- With a nonnegative margin, the boundary decision for an agent failing the
margin condition is the zero force. -/
theorem boundary_avoidance_of_not_inMargin (b : BoidState) (cfg : SimpleConfig)
    (min_speed rng : ℝ) (hm : 0 ≤ cfg.boundary_margin)
    (h : ¬ inMargin b.x b.y cfg) :
    boundary_avoidance_simple b cfg min_speed rng = BoundaryResult.Force 0 0 := by
  rw [boundary_avoidance_simple,
    handle_hard_bounce_none b cfg 5 rng (not_outOfWorld_of_not_inMargin b cfg hm h),
    boundary_forces_of_not_inMargin b cfg h]

/-- With a nonnegative margin, the update of an agent failing the margin
condition is the normal flocking step with zero boundary force. -/
theorem update_eq_flockStep_of_not_inMargin (i : ℕ) (b : BoidState)
    (states : List BoidState) (cfg : SimpleConfig)
    (dt min_speed jitter rngB θ : ℝ) (hm : 0 ≤ cfg.boundary_margin)
    (hnm : ¬ inMargin b.x b.y cfg) :
    update_boid_state i b states cfg dt min_speed jitter rngB θ =
      flockStep i b states cfg dt min_speed jitter θ 0 0 := by
  rw [update_boid_state, if_neg hnm,
    boundary_avoidance_of_not_inMargin b cfg min_speed rngB hm hnm]

/-- The flags field emitted by the flocking step is the `IN_MARGIN` indicator
of the new position. -/
theorem flockStep_flags (i : ℕ) (b : BoidState) (states : List BoidState)
    (cfg : SimpleConfig) (dt min_speed jitter θ fx fy : ℝ) :
    (flockStep i b states cfg dt min_speed jitter θ fx fy).flags =
      (if inMargin (flockStep i b states cfg dt min_speed jitter θ fx fy).x
          (flockStep i b states cfg dt min_speed jitter θ fx fy).y cfg
        then 1 else 0) := by
  simp only [flockStep]
  split <;> rfl

/-- C3: for every configuration with `boundary_margin ≥ 0`, the hard-bounce
and velocity-override branches of `update_boid_state` are unreachable and the
boundary force added on the normal flocking path is exactly (0, 0): any agent
that is out of bounds (or in the margin band) already satisfies the
deep-margin condition checked first and is handled by the center-pull
override, and an agent failing that condition gets a zero margin force. -/
theorem margin_nonneg_no_bounce (i : ℕ) (b : BoidState)
    (states : List BoidState) (cfg : SimpleConfig)
    (dt min_speed jitter rngB θ : ℝ) (hm : 0 ≤ cfg.boundary_margin) :
    (outOfWorld b cfg → inMargin b.x b.y cfg) ∧
    (¬ inMargin b.x b.y cfg →
      boundary_avoidance_simple b cfg min_speed rngB = BoundaryResult.Force 0 0) ∧
    (¬ inMargin b.x b.y cfg →
      update_boid_state i b states cfg dt min_speed jitter rngB θ =
        flockStep i b states cfg dt min_speed jitter θ 0 0) ∧
    (inMargin b.x b.y cfg →
      update_boid_state i b states cfg dt min_speed jitter rngB θ =
        marginOverrideStep b cfg dt min_speed) := by
  refine ⟨?_, fun h => boundary_avoidance_of_not_inMargin b cfg min_speed rngB hm h,
    fun h => update_eq_flockStep_of_not_inMargin i b states cfg dt min_speed jitter rngB θ hm h,
    fun h => by rw [update_boid_state, if_pos h]⟩
  intro ho
  by_contra h
  exact not_outOfWorld_of_not_inMargin b cfg hm h ho

/-- Witness for C3 at a concrete in-interior agent and margin 5. -/
theorem margin_nonneg_no_bounce_witness :
    (outOfWorld ⟨50, 50, 0, 0, 0⟩ cfgC1 → inMargin 50 50 cfgC1) ∧
    (¬ inMargin 50 50 cfgC1 →
      boundary_avoidance_simple ⟨50, 50, 0, 0, 0⟩ cfgC1 10 0 = BoundaryResult.Force 0 0) ∧
    (¬ inMargin 50 50 cfgC1 →
      update_boid_state 0 ⟨50, 50, 0, 0, 0⟩ [⟨50, 50, 0, 0, 0⟩] cfgC1 1 10 0 0 0 =
        flockStep 0 ⟨50, 50, 0, 0, 0⟩ [⟨50, 50, 0, 0, 0⟩] cfgC1 1 10 0 0 0 0) ∧
    (inMargin 50 50 cfgC1 →
      update_boid_state 0 ⟨50, 50, 0, 0, 0⟩ [⟨50, 50, 0, 0, 0⟩] cfgC1 1 10 0 0 0 =
        marginOverrideStep ⟨50, 50, 0, 0, 0⟩ cfgC1 1 10) :=
  margin_nonneg_no_bounce 0 ⟨50, 50, 0, 0, 0⟩ [⟨50, 50, 0, 0, 0⟩] cfgC1 1 10 0 0 0
    (by norm_num [cfgC1])

/-- When `x < 0`, the bounce clamps x to 0 and reflects vx with the nudge
boost, whatever the y axis does. -/
theorem handle_x_lt (b : BoidState) (cfg : SimpleConfig) (nudge rng : ℝ)
    (hx : b.x < 0) :
    ∃ py pvy : ℝ, handle_hard_bounce b cfg nudge rng =
      some (0, py, |b.vx| + nudge * (0.8 + 0.4 * rng), pvy) := by
  simp only [handle_hard_bounce, if_pos hx, Bool.true_or, if_true]
  exact ⟨_, _, rfl⟩

/-- When `x > world_width` (and not `x < 0`), the bounce clamps x to the
width and reflects vx negatively with the nudge boost. -/
theorem handle_x_gt (b : BoidState) (cfg : SimpleConfig) (nudge rng : ℝ)
    (hx0 : ¬ b.x < 0) (hx : b.x > cfg.world_width) :
    ∃ py pvy : ℝ, handle_hard_bounce b cfg nudge rng =
      some (cfg.world_width, py, -|b.vx| - nudge * (0.8 + 0.4 * rng), pvy) := by
  simp only [handle_hard_bounce, if_neg hx0, if_pos hx, Bool.true_or, if_true]
  exact ⟨_, _, rfl⟩

/-- When `y < 0`, the bounce clamps y to 0 and reflects vy with the nudge
boost, whatever the x axis does. -/
theorem handle_y_lt (b : BoidState) (cfg : SimpleConfig) (nudge rng : ℝ)
    (hy : b.y < 0) :
    ∃ px pvx : ℝ, handle_hard_bounce b cfg nudge rng =
      some (px, 0, pvx, |b.vy| + nudge * (0.8 + 0.4 * rng)) := by
  simp only [handle_hard_bounce, if_pos hy, Bool.or_true, if_true]
  exact ⟨_, _, rfl⟩

/-- When `y > world_height` (and not `y < 0`), the bounce clamps y to the
height and reflects vy negatively with the nudge boost. -/
theorem handle_y_gt (b : BoidState) (cfg : SimpleConfig) (nudge rng : ℝ)
    (hy0 : ¬ b.y < 0) (hy : b.y > cfg.world_height) :
    ∃ px pvx : ℝ, handle_hard_bounce b cfg nudge rng =
      some (px, cfg.world_height, pvx, -|b.vy| - nudge * (0.8 + 0.4 * rng)) := by
  simp only [handle_hard_bounce, if_neg hy0, if_pos hy, Bool.or_true, if_true]
  exact ⟨_, _, rfl⟩

/-- C2 (amended): hard bounce fires only for agents that fail the deep-margin
condition (possible only with a negative `boundary_margin`, since any
out-of-bounds position satisfies the margin condition when the margin is
nonnegative): for every such agent, the update returns exactly the bounce
state — each out-of-bounds axis clamped to the boundary and its velocity
component reflected with the nudge boost — with no flocking or margin force
and output flags 0. -/
theorem hard_bounce_when_not_in_margin (i : ℕ) (b : BoidState)
    (states : List BoidState) (cfg : SimpleConfig)
    (dt min_speed jitter rngB θ : ℝ) (q : ℝ × ℝ × ℝ × ℝ)
    (hw : 0 ≤ cfg.world_width) (hh : 0 ≤ cfg.world_height)
    (hm : ¬ inMargin b.x b.y cfg)
    (hq : handle_hard_bounce b cfg 5 rngB = some q) :
    update_boid_state i b states cfg dt min_speed jitter rngB θ =
      ⟨q.1, q.2.1, q.2.2.1, q.2.2.2, 0⟩ ∧
    (b.x < 0 → q.1 = 0 ∧ q.2.2.1 = |b.vx| + 5 * (0.8 + 0.4 * rngB)) ∧
    (b.x > cfg.world_width → q.1 = cfg.world_width ∧
      q.2.2.1 = -|b.vx| - 5 * (0.8 + 0.4 * rngB)) ∧
    (b.y < 0 → q.2.1 = 0 ∧ q.2.2.2 = |b.vy| + 5 * (0.8 + 0.4 * rngB)) ∧
    (b.y > cfg.world_height → q.2.1 = cfg.world_height ∧
      q.2.2.2 = -|b.vy| - 5 * (0.8 + 0.4 * rngB)) := by
  refine ⟨?_, ?_, ?_, ?_, ?_⟩
  · rw [update_boid_state, if_neg hm]
    simp only [boundary_avoidance_simple, hq]
  · intro hx
    obtain ⟨py, pvy, hp⟩ := handle_x_lt b cfg 5 rngB hx
    rw [hq] at hp
    obtain rfl := Option.some_injective _ hp
    exact ⟨rfl, rfl⟩
  · intro hx
    have hx0 : ¬ b.x < 0 := not_lt.mpr (le_of_lt (lt_of_le_of_lt hw hx))
    obtain ⟨py, pvy, hp⟩ := handle_x_gt b cfg 5 rngB hx0 hx
    rw [hq] at hp
    obtain rfl := Option.some_injective _ hp
    exact ⟨rfl, rfl⟩
  · intro hy
    obtain ⟨px, pvx, hp⟩ := handle_y_lt b cfg 5 rngB hy
    rw [hq] at hp
    obtain rfl := Option.some_injective _ hp
    exact ⟨rfl, rfl⟩
  · intro hy
    have hy0 : ¬ b.y < 0 := not_lt.mpr (le_of_lt (lt_of_le_of_lt hh hy))
    obtain ⟨px, pvx, hp⟩ := handle_y_gt b cfg 5 rngB hy0 hy
    rw [hq] at hp
    obtain rfl := Option.some_injective _ hp
    exact ⟨rfl, rfl⟩

/-- C2 counterexample: with margin 10 (a nonnegative margin), the agent at
x = -1 — strictly out of bounds on the x axis — is handled by the deep-margin
override, not the hard bounce: its output flags are 1, not 0 as claimed. -/
theorem hard_bounce_priority_cex :
    ((-1:ℝ) < 0) ∧
    (update_boid_state 0 ⟨-1, 50, 0, 0, 0⟩ [⟨-1, 50, 0, 0, 0⟩] cfgC2 1 0 0 0 0).flags = 1 := by
  constructor
  · norm_num
  · have hin : inMargin (BoidState.mk (-1) 50 0 0 0).x (BoidState.mk (-1) 50 0 0 0).y cfgC2 :=
      Or.inl (by norm_num [cfgC2])
    rw [update_boid_state, if_pos hin]
    rfl

/-- Witness for C2 (amended) with margin -10: the agent at x = -1 fails the
deep-margin condition, so the bounce state is returned directly. -/
theorem hard_bounce_when_not_in_margin_witness :
    update_boid_state 0 ⟨-1, 50, 0, 0, 0⟩ [⟨-1, 50, 0, 0, 0⟩] cfgNeg 1 0 0 0 0 =
      ⟨0, 50, 4, 0, 0⟩ := by
  have hq : handle_hard_bounce ⟨-1, 50, 0, 0, 0⟩ cfgNeg 5 0 = some (0, 50, 4, 0) := by
    simp only [handle_hard_bounce, cfgNeg]
    norm_num
  exact (hard_bounce_when_not_in_margin 0 ⟨-1, 50, 0, 0, 0⟩ [⟨-1, 50, 0, 0, 0⟩]
    cfgNeg 1 0 0 0 0 (0, 50, 4, 0) (by norm_num [cfgNeg]) (by norm_num [cfgNeg])
    (by norm_num [inMargin, cfgNeg]) hq).1

/-- C6 (amended): on each out-of-bounds axis the bounced component points back
into bounds, and its magnitude is at least 4.0 — strictly greater whenever the
incoming component is nonzero or the draw `r` is positive; at `v = 0, r = 0`
the magnitude is exactly 4.0. -/
theorem bounce_component_sign_floor (b : BoidState) (cfg : SimpleConfig) (rng : ℝ)
    (h0 : 0 ≤ rng) ( _h1 : rng < 1)
    (hw : 0 ≤ cfg.world_width) (hh : 0 ≤ cfg.world_height) :
    (b.x < 0 → ∃ py pvy : ℝ, handle_hard_bounce b cfg 5 rng =
      some (0, py, |b.vx| + 5 * (0.8 + 0.4 * rng), pvy) ∧
      0 < |b.vx| + 5 * (0.8 + 0.4 * rng) ∧ 4 ≤ |b.vx| + 5 * (0.8 + 0.4 * rng) ∧
      ((b.vx ≠ 0 ∨ 0 < rng) → 4 < |b.vx| + 5 * (0.8 + 0.4 * rng))) ∧
    (b.x > cfg.world_width → ∃ py pvy : ℝ, handle_hard_bounce b cfg 5 rng =
      some (cfg.world_width, py, -|b.vx| - 5 * (0.8 + 0.4 * rng), pvy) ∧
      -|b.vx| - 5 * (0.8 + 0.4 * rng) < 0 ∧ -|b.vx| - 5 * (0.8 + 0.4 * rng) ≤ -4 ∧
      ((b.vx ≠ 0 ∨ 0 < rng) → -|b.vx| - 5 * (0.8 + 0.4 * rng) < -4)) ∧
    (b.y < 0 → ∃ px pvx : ℝ, handle_hard_bounce b cfg 5 rng =
      some (px, 0, pvx, |b.vy| + 5 * (0.8 + 0.4 * rng)) ∧
      0 < |b.vy| + 5 * (0.8 + 0.4 * rng) ∧ 4 ≤ |b.vy| + 5 * (0.8 + 0.4 * rng) ∧
      ((b.vy ≠ 0 ∨ 0 < rng) → 4 < |b.vy| + 5 * (0.8 + 0.4 * rng))) ∧
    (b.y > cfg.world_height → ∃ px pvx : ℝ, handle_hard_bounce b cfg 5 rng =
      some (px, cfg.world_height, pvx, -|b.vy| - 5 * (0.8 + 0.4 * rng)) ∧
      -|b.vy| - 5 * (0.8 + 0.4 * rng) < 0 ∧ -|b.vy| - 5 * (0.8 + 0.4 * rng) ≤ -4 ∧
      ((b.vy ≠ 0 ∨ 0 < rng) → -|b.vy| - 5 * (0.8 + 0.4 * rng) < -4)) := by
  have habsx : (0:ℝ) ≤ |b.vx| := abs_nonneg _
  have habsy : (0:ℝ) ≤ |b.vy| := abs_nonneg _
  refine ⟨?_, ?_, ?_, ?_⟩
  · intro hx
    obtain ⟨py, pvy, hp⟩ := handle_x_lt b cfg 5 rng hx
    refine ⟨py, pvy, hp, by linarith, by linarith, ?_⟩
    rintro (hv | hr)
    · have := abs_pos.mpr hv; linarith
    · linarith
  · intro hx
    have hx0 : ¬ b.x < 0 := not_lt.mpr (le_of_lt (lt_of_le_of_lt hw hx))
    obtain ⟨py, pvy, hp⟩ := handle_x_gt b cfg 5 rng hx0 hx
    refine ⟨py, pvy, hp, by linarith, by linarith, ?_⟩
    rintro (hv | hr)
    · have := abs_pos.mpr hv; linarith
    · linarith
  · intro hy
    obtain ⟨px, pvx, hp⟩ := handle_y_lt b cfg 5 rng hy
    refine ⟨px, pvx, hp, by linarith, by linarith, ?_⟩
    rintro (hv | hr)
    · have := abs_pos.mpr hv; linarith
    · linarith
  · intro hy
    have hy0 : ¬ b.y < 0 := not_lt.mpr (le_of_lt (lt_of_le_of_lt hh hy))
    obtain ⟨px, pvx, hp⟩ := handle_y_gt b cfg 5 rng hy0 hy
    refine ⟨px, pvx, hp, by linarith, by linarith, ?_⟩
    rintro (hv | hr)
    · have := abs_pos.mpr hv; linarith
    · linarith

/-- Witness for C6 (amended) at x = -1, vx = 0, r = 1/2. -/
theorem bounce_component_sign_floor_witness :
    ∃ py pvy : ℝ, handle_hard_bounce ⟨-1, 50, 0, 0, 0⟩ cfgC2 5 (1/2) =
      some (0, py, |(0:ℝ)| + 5 * (0.8 + 0.4 * (1/2)), pvy) ∧
      0 < |(0:ℝ)| + 5 * (0.8 + 0.4 * (1/2)) ∧ 4 ≤ |(0:ℝ)| + 5 * (0.8 + 0.4 * (1/2)) ∧
      (((0:ℝ) ≠ 0 ∨ 0 < (1/2:ℝ)) → 4 < |(0:ℝ)| + 5 * (0.8 + 0.4 * (1/2))) :=
  (bounce_component_sign_floor ⟨-1, 50, 0, 0, 0⟩ cfgC2 (1/2) (by norm_num) (by norm_num)
    (by norm_num [cfgC2]) (by norm_num [cfgC2])).1 (by norm_num)

/-- C6 counterexample: at x = -1 with vx = 0 and draw r = 0 the bounced x
velocity component is exactly 4.0, not strictly greater than 4.0. -/
theorem bounce_nudge_floor_cex :
    handle_hard_bounce ⟨-1, 50, 0, 0, 0⟩ cfgC2 5 0 = some (0, 50, 4, 0) ∧
    ¬ ((4:ℝ) < |(4:ℝ)|) := by
  constructor
  · simp only [handle_hard_bounce, cfgC2]
    norm_num
  · norm_num

/-- C1 (amended): on a non-bounce frame the output velocity is exactly the
progressive speed clamp of the integrated pre-clamp velocity, and the output
magnitude lies within `[min_speed, max_speed]` whenever the pre-clamp
magnitude already does; the clamp only moves an out-of-range speed 10% toward
the violated bound, so in general a completed update may leave the magnitude
outside the range. -/
theorem update_vel_clamp_blend (i : ℕ) (b : BoidState) (states : List BoidState)
    (cfg : SimpleConfig) (dt min_speed jitter rngB θ : ℝ) (w : Vec2)
    (h : inMargin b.x b.y cfg ∨ handle_hard_bounce b cfg 5 rngB = none)
    (hw1 : inMargin b.x b.y cfg → w = marginPreVel b cfg dt)
    (hw2 : ¬ inMargin b.x b.y cfg →
      w = flockPreVel i b states cfg dt jitter θ
        (boundary_forces b cfg).1.1 (boundary_forces b cfg).1.2) :
    (update_boid_state i b states cfg dt min_speed jitter rngB θ).vx =
      (clamp_speed_progressive w min_speed cfg.max_speed 0.1 0.1).x ∧
    (update_boid_state i b states cfg dt min_speed jitter rngB θ).vy =
      (clamp_speed_progressive w min_speed cfg.max_speed 0.1 0.1).y ∧
    (min_speed ≤ w.length → w.length ≤ cfg.max_speed →
      min_speed ≤ Vec2.length
        ⟨(update_boid_state i b states cfg dt min_speed jitter rngB θ).vx,
         (update_boid_state i b states cfg dt min_speed jitter rngB θ).vy⟩ ∧
      Vec2.length
        ⟨(update_boid_state i b states cfg dt min_speed jitter rngB θ).vx,
         (update_boid_state i b states cfg dt min_speed jitter rngB θ).vy⟩ ≤
        cfg.max_speed) := by
  have key : (update_boid_state i b states cfg dt min_speed jitter rngB θ).vx =
      (clamp_speed_progressive w min_speed cfg.max_speed 0.1 0.1).x ∧
      (update_boid_state i b states cfg dt min_speed jitter rngB θ).vy =
      (clamp_speed_progressive w min_speed cfg.max_speed 0.1 0.1).y := by
    by_cases hm : inMargin b.x b.y cfg
    · rw [update_boid_state, if_pos hm, hw1 hm]
      exact ⟨rfl, rfl⟩
    · have hq := h.resolve_left hm
      rw [update_boid_state, if_neg hm]
      simp only [boundary_avoidance_simple, hq]
      rw [hw2 hm]
      exact ⟨rfl, rfl⟩
  refine ⟨key.1, key.2, fun hl hu => ?_⟩
  rw [key.1, key.2,
    clamp_speed_progressive_of_mem w _ _ _ _ (not_lt.mpr hl) (not_lt.mpr hu)]
  exact ⟨hl, hu⟩

/-- The length of the concrete vector (45, 0) is 45. -/
theorem length_45 : (Vec2.mk 45 0).length = 45 :=
  Vec2.length_eval (by norm_num) (by norm_num)

/-- The concrete vector (45, 0) normalizes to (1, 0). -/
theorem normalized_45 : (Vec2.mk 45 0).normalized = ⟨1, 0⟩ := by
  simp only [Vec2.normalized]
  rw [if_pos (show (0:ℝ) < (Vec2.mk 45 0).length by rw [length_45]; norm_num)]
  rw [length_45]
  norm_num

/-- The pre-clamp velocity of the margin-override path at the concrete agent
(5, 50) with zero velocity under `cfgC4` is (10, 0). -/
theorem marginPreVel_five : marginPreVel ⟨5, 50, 0, 0, 0⟩ cfgC4 1 = ⟨10, 0⟩ := by
  have ecen : (Vec2.mk (0.5 * (100:ℝ)) (0.5 * (100:ℝ))) - (⟨5, 50⟩ : Vec2) =
      (⟨45, 0⟩ : Vec2) := by
    rw [Vec2.sub_def]; norm_num
  simp only [marginPreVel, cfgC4]
  rw [ecen, normalized_45]
  simp only [Vec2.mul_def, Vec2.add_def]
  norm_num

/-- Witness for C1 (amended) at the concrete margin-path agent (5, 50):
the output velocity is the clamp of the pre-clamp velocity (10, 0), whose
magnitude 10 lies within [0, 100], so the output magnitude does too. -/
theorem update_vel_clamp_blend_witness :
    (update_boid_state 0 ⟨5, 50, 0, 0, 0⟩ [⟨5, 50, 0, 0, 0⟩] cfgC4 1 0 0 0 0).vx =
      (clamp_speed_progressive (marginPreVel ⟨5, 50, 0, 0, 0⟩ cfgC4 1) 0
        cfgC4.max_speed 0.1 0.1).x ∧
    (update_boid_state 0 ⟨5, 50, 0, 0, 0⟩ [⟨5, 50, 0, 0, 0⟩] cfgC4 1 0 0 0 0).vy =
      (clamp_speed_progressive (marginPreVel ⟨5, 50, 0, 0, 0⟩ cfgC4 1) 0
        cfgC4.max_speed 0.1 0.1).y ∧
    ((0:ℝ) ≤ Vec2.length
        ⟨(update_boid_state 0 ⟨5, 50, 0, 0, 0⟩ [⟨5, 50, 0, 0, 0⟩] cfgC4 1 0 0 0 0).vx,
         (update_boid_state 0 ⟨5, 50, 0, 0, 0⟩ [⟨5, 50, 0, 0, 0⟩] cfgC4 1 0 0 0 0).vy⟩ ∧
      Vec2.length
        ⟨(update_boid_state 0 ⟨5, 50, 0, 0, 0⟩ [⟨5, 50, 0, 0, 0⟩] cfgC4 1 0 0 0 0).vx,
         (update_boid_state 0 ⟨5, 50, 0, 0, 0⟩ [⟨5, 50, 0, 0, 0⟩] cfgC4 1 0 0 0 0).vy⟩ ≤
        cfgC4.max_speed) := by
  have hin : inMargin (BoidState.mk 5 50 0 0 0).x (BoidState.mk 5 50 0 0 0).y cfgC4 :=
    Or.inl (by norm_num [cfgC4])
  have hlen : (marginPreVel ⟨5, 50, 0, 0, 0⟩ cfgC4 1).length = 10 := by
    rw [marginPreVel_five]
    exact Vec2.length_eval (by norm_num) (by norm_num)
  have h := update_vel_clamp_blend 0 ⟨5, 50, 0, 0, 0⟩ [⟨5, 50, 0, 0, 0⟩] cfgC4 1 0 0 0 0
    (marginPreVel ⟨5, 50, 0, 0, 0⟩ cfgC4 1) (Or.inl hin)
    (fun _ => rfl) (fun hn => absurd hin hn)
  exact ⟨h.1, h.2.1, h.2.2 (by rw [hlen]; norm_num) (by rw [hlen]; norm_num [cfgC4])⟩

/-- The length of the concrete vector (1, 0) is 1. -/
theorem length_one : (Vec2.mk 1 0).length = 1 :=
  Vec2.length_eval (by norm_num) (by norm_num)

/-- The length of the concrete vector (1.9, 0) is 1.9. -/
theorem length_one_nine : (Vec2.mk 1.9 0).length = 1.9 :=
  Vec2.length_eval (by norm_num) (by norm_num)

/-- Evaluating the progressive clamp on the concrete velocity (1, 0) with
bounds [10, 100]: the floor blend moves the speed only 10% toward 10,
yielding (1.9, 0). -/
theorem clamp_one_ten : clamp_speed_progressive ⟨1, 0⟩ 10 100 0.1 0.1 = ⟨1.9, 0⟩ := by
  have hmax : max (Vec2.mk 1 0).length (1e-6) = 1 := by
    rw [length_one]; exact max_eq_left (by norm_num)
  simp only [clamp_speed_progressive,
    if_pos (show (Vec2.mk 1 0).length < 10 by rw [length_one]; norm_num), hmax]
  have eblend : (⟨1, 0⟩ : Vec2) * ((1:ℝ) - 0.1) + ((⟨1, 0⟩ : Vec2) * ((10:ℝ) / 1)) * (0.1:ℝ) =
      (⟨1.9, 0⟩ : Vec2) := by
    simp only [Vec2.mul_def, Vec2.add_def]
    norm_num
  rw [eblend, if_neg (show ¬ (100:ℝ) < (Vec2.mk 1.9 0).length by
    rw [length_one_nine]; norm_num)]

/-- C1 counterexample: the agent at (0, 50) with velocity (1, 0), margin 5,
zero max force, min speed 10 — a frame with no hard bounce — ends the update
with velocity (1.9, 0), whose magnitude 1.9 is below `min_speed = 10`: the
claimed invariant fails on a non-bounce frame. -/
theorem update_speed_invariant_cex :
    handle_hard_bounce ⟨0, 50, 1, 0, 0⟩ cfgC1 5 0 = none ∧
    Vec2.length
      ⟨(update_boid_state 0 ⟨0, 50, 1, 0, 0⟩ [⟨0, 50, 1, 0, 0⟩] cfgC1 1 10 0 0 0).vx,
       (update_boid_state 0 ⟨0, 50, 1, 0, 0⟩ [⟨0, 50, 1, 0, 0⟩] cfgC1 1 10 0 0 0).vy⟩ < 10 := by
  have hin : inMargin (BoidState.mk 0 50 1 0 0).x (BoidState.mk 0 50 1 0 0).y cfgC1 :=
    Or.inl (by norm_num [cfgC1])
  have epre : marginPreVel ⟨0, 50, 1, 0, 0⟩ cfgC1 1 = ⟨1, 0⟩ := by
    simp only [marginPreVel, cfgC1, Vec2.mul_def, Vec2.add_def]
    norm_num
  have hu : update_boid_state 0 ⟨0, 50, 1, 0, 0⟩ [⟨0, 50, 1, 0, 0⟩] cfgC1 1 10 0 0 0 =
      marginOverrideStep ⟨0, 50, 1, 0, 0⟩ cfgC1 1 10 := by
    rw [update_boid_state, if_pos hin]
  constructor
  · exact handle_hard_bounce_none _ _ _ _ (by norm_num [outOfWorld, cfgC1])
  · rw [hu]
    have hvx : (marginOverrideStep ⟨0, 50, 1, 0, 0⟩ cfgC1 1 10).vx =
        (clamp_speed_progressive (marginPreVel ⟨0, 50, 1, 0, 0⟩ cfgC1 1) 10
          (100:ℝ) 0.1 0.1).x := rfl
    have hvy : (marginOverrideStep ⟨0, 50, 1, 0, 0⟩ cfgC1 1 10).vy =
        (clamp_speed_progressive (marginPreVel ⟨0, 50, 1, 0, 0⟩ cfgC1 1) 10
          (100:ℝ) 0.1 0.1).y := rfl
    rw [hvx, hvy, epre, clamp_one_ten]
    have h19 : (Vec2.mk ((19:ℝ)/10) 0).length = 19/10 :=
      Vec2.length_eval (by norm_num) (by norm_num)
    norm_num [h19]

/-- C4 (amended): for every agent strictly inside
[margin, width-margin] × [margin, height-margin] (with a nonnegative margin),
the deep-margin override is not applied — the agent takes the normal flocking
path with zero boundary force — and the `IN_MARGIN` output bit equals 1
exactly when the *new* position lies in the margin band: the flag is
recomputed from the post-update position, so it can be 1 when the agent
enters the band during the frame. -/
theorem inside_band_flock_path (i : ℕ) (b : BoidState) (states : List BoidState)
    (cfg : SimpleConfig) (dt min_speed jitter rngB θ : ℝ)
    (hm : 0 ≤ cfg.boundary_margin)
    (h1 : cfg.boundary_margin < b.x)
    (h2 : b.x < cfg.world_width - cfg.boundary_margin)
    (h3 : cfg.boundary_margin < b.y)
    (h4 : b.y < cfg.world_height - cfg.boundary_margin) :
    update_boid_state i b states cfg dt min_speed jitter rngB θ =
      flockStep i b states cfg dt min_speed jitter θ 0 0 ∧
    (update_boid_state i b states cfg dt min_speed jitter rngB θ).flags =
      (if inMargin (update_boid_state i b states cfg dt min_speed jitter rngB θ).x
          (update_boid_state i b states cfg dt min_speed jitter rngB θ).y cfg
        then 1 else 0) := by
  have hnm : ¬ inMargin b.x b.y cfg := by
    unfold inMargin
    push_neg
    exact ⟨le_of_lt h1, le_of_lt h2, le_of_lt h3, le_of_lt h4⟩
  have he := update_eq_flockStep_of_not_inMargin i b states cfg dt min_speed jitter rngB θ
    hm hnm
  refine ⟨he, ?_⟩
  rw [he]
  exact flockStep_flags i b states cfg dt min_speed jitter θ 0 0

/-- Witness for C4 (amended) at the concrete agent (11, 50) strictly inside
the band of `cfgC4`. -/
theorem inside_band_flock_path_witness :
    update_boid_state 0 ⟨11, 50, -10, 0, 0⟩ [⟨11, 50, -10, 0, 0⟩] cfgC4 1 0 0 0 0 =
      flockStep 0 ⟨11, 50, -10, 0, 0⟩ [⟨11, 50, -10, 0, 0⟩] cfgC4 1 0 0 0 0 0 ∧
    (update_boid_state 0 ⟨11, 50, -10, 0, 0⟩ [⟨11, 50, -10, 0, 0⟩] cfgC4 1 0 0 0 0).flags =
      (if inMargin
          (update_boid_state 0 ⟨11, 50, -10, 0, 0⟩ [⟨11, 50, -10, 0, 0⟩] cfgC4 1 0 0 0 0).x
          (update_boid_state 0 ⟨11, 50, -10, 0, 0⟩ [⟨11, 50, -10, 0, 0⟩] cfgC4 1 0 0 0 0).y
          cfgC4
        then 1 else 0) :=
  inside_band_flock_path 0 ⟨11, 50, -10, 0, 0⟩ [⟨11, 50, -10, 0, 0⟩] cfgC4 1 0 0 0 0
    (by norm_num [cfgC4]) (by norm_num [cfgC4]) (by norm_num [cfgC4])
    (by norm_num [cfgC4]) (by norm_num [cfgC4])

/-- C4 counterexample: the agent at (11, 50) — strictly inside the band of
`cfgC4` — with velocity (-10, 0) ends the frame at (1, 50), inside the band,
so its output `IN_MARGIN` bit is 1, not 0 as the claim states. -/
theorem inside_band_flag_cex :
    (cfgC4.boundary_margin < (11:ℝ) ∧
     (11:ℝ) < cfgC4.world_width - cfgC4.boundary_margin ∧
     cfgC4.boundary_margin < (50:ℝ) ∧
     (50:ℝ) < cfgC4.world_height - cfgC4.boundary_margin) ∧
    (update_boid_state 0 ⟨11, 50, -10, 0, 0⟩ [⟨11, 50, -10, 0, 0⟩] cfgC4 1 0 0 0 0).flags
      = 1 := by
  refine ⟨by norm_num [cfgC4], ?_⟩
  have hnm : ¬ inMargin (BoidState.mk 11 50 (-10) 0 0).x
      (BoidState.mk 11 50 (-10) 0 0).y cfgC4 := by
    norm_num [inMargin, cfgC4]
  have he := update_eq_flockStep_of_not_inMargin 0 ⟨11, 50, -10, 0, 0⟩
    [⟨11, 50, -10, 0, 0⟩] cfgC4 1 0 0 0 0 (by norm_num [cfgC4]) hnm
  rw [he]
  have hz : ∀ (r : ℝ), ∀ o ∈ [(⟨11, 50, -10, 0, 0⟩ : BoidState)],
      ¬ (0 < dsq (([(⟨11, 50, -10, 0, 0⟩ : BoidState)]).getD 0 default) o ∧
         dsq (([(⟨11, 50, -10, 0, 0⟩ : BoidState)]).getD 0 default) o < r * r) := by
    intro r o ho
    simp only [List.mem_singleton] at ho
    subst ho
    simp [dsq]
  have es := separation_eq_zero 0 [(⟨11, 50, -10, 0, 0⟩ : BoidState)]
    cfgC4.separation_radius (hz _)
  have ea := alignment_eq_zero 0 [(⟨11, 50, -10, 0, 0⟩ : BoidState)]
    cfgC4.alignment_radius (hz _)
  have ec := cohesion_eq_zero 0 [(⟨11, 50, -10, 0, 0⟩ : BoidState)]
    cfgC4.cohesion_radius (hz _)
  have epre : flockPreVel 0 ⟨11, 50, -10, 0, 0⟩ [⟨11, 50, -10, 0, 0⟩] cfgC4 1 0 0 0 0 =
      ⟨-10, 0⟩ := by
    simp only [flockPreVel, es, ea, ec]
    norm_num [cfgC4, limit_magnitude, Vec2.add_def, Vec2.mul_def]
  have hlen10 : (Vec2.mk (-10) 0).length = 10 :=
    Vec2.length_eval (by norm_num) (by norm_num)
  have ev : clamp_speed_progressive ⟨-10, 0⟩ 0 cfgC4.max_speed 0.1 0.1 = ⟨-10, 0⟩ :=
    clamp_speed_progressive_of_mem _ _ _ _ _ (by rw [hlen10]; norm_num)
      (by rw [hlen10]; norm_num [cfgC4])
  rw [flockStep_flags]
  have hx : (flockStep 0 ⟨11, 50, -10, 0, 0⟩ [⟨11, 50, -10, 0, 0⟩] cfgC4 1 0 0 0 0 0).x
      = 1 := by
    show ((⟨(11:ℝ), 50⟩ : Vec2) +
      clamp_speed_progressive
        (flockPreVel 0 ⟨11, 50, -10, 0, 0⟩ [⟨11, 50, -10, 0, 0⟩] cfgC4 1 0 0 0 0)
        0 cfgC4.max_speed 0.1 0.1 * (1:ℝ)).x = 1
    rw [epre, ev]
    simp only [Vec2.mul_def, Vec2.add_def]
    norm_num
  have hy : (flockStep 0 ⟨11, 50, -10, 0, 0⟩ [⟨11, 50, -10, 0, 0⟩] cfgC4 1 0 0 0 0 0).y
      = 50 := by
    show ((⟨(11:ℝ), 50⟩ : Vec2) +
      clamp_speed_progressive
        (flockPreVel 0 ⟨11, 50, -10, 0, 0⟩ [⟨11, 50, -10, 0, 0⟩] cfgC4 1 0 0 0 0)
        0 cfgC4.max_speed 0.1 0.1 * (1:ℝ)).y = 50
    rw [epre, ev]
    simp only [Vec2.mul_def, Vec2.add_def]
    norm_num
  rw [hx, hy, if_pos (show inMargin 1 50 cfgC4 from Or.inl (by norm_num [cfgC4]))]

/-- C7 (amended): for an agent outside the margin band (nonnegative margin)
whose speed already lies within [min_speed, max_speed], one update with zero
separation/alignment/cohesion strengths and zero jitter is pure linear
motion: new position = position + velocity · dt, velocity unchanged.  The
claim as stated omits the margin-band and speed-floor conditions, without
which the deep-margin override or the floor blend changes the velocity. -/
theorem linear_motion_roundtrip (i : ℕ) (b : BoidState) (states : List BoidState)
    (cfg : SimpleConfig) (dt min_speed jitter rngB θ : ℝ)
    (hm : 0 ≤ cfg.boundary_margin)
    (hnm : ¬ inMargin b.x b.y cfg)
    (hss : cfg.separation_strength = 0) (has : cfg.alignment_strength = 0)
    (hcs : cfg.cohesion_strength = 0) (hj : jitter = 0)
    (hmin : min_speed ≤ (Vec2.mk b.vx b.vy).length)
    (hmax : (Vec2.mk b.vx b.vy).length ≤ cfg.max_speed) :
    (update_boid_state i b states cfg dt min_speed jitter rngB θ).x = b.x + b.vx * dt ∧
    (update_boid_state i b states cfg dt min_speed jitter rngB θ).y = b.y + b.vy * dt ∧
    (update_boid_state i b states cfg dt min_speed jitter rngB θ).vx = b.vx ∧
    (update_boid_state i b states cfg dt min_speed jitter rngB θ).vy = b.vy := by
  have he := update_eq_flockStep_of_not_inMargin i b states cfg dt min_speed jitter
    rngB θ hm hnm
  have hlim : limit_magnitude 0 0 cfg.max_force = (0, 0) := by
    rw [limit_magnitude, if_neg ?hc]
    case hc =>
      push_neg
      norm_num [mul_self_nonneg]
  have epre : flockPreVel i b states cfg dt jitter θ 0 0 = ⟨b.vx, b.vy⟩ := by
    simp only [flockPreVel, hss, has, hcs, hj, mul_zero, add_zero, zero_add, hlim,
      Vec2.add_def, Vec2.mul_def, zero_mul]
  have ev : clamp_speed_progressive (flockPreVel i b states cfg dt jitter θ 0 0)
      min_speed cfg.max_speed 0.1 0.1 = ⟨b.vx, b.vy⟩ := by
    rw [epre]
    exact clamp_speed_progressive_of_mem _ _ _ _ _ (not_lt.mpr hmin) (not_lt.mpr hmax)
  refine ⟨?_, ?_, ?_, ?_⟩
  · rw [he]
    show ((⟨b.x, b.y⟩ : Vec2) + clamp_speed_progressive
      (flockPreVel i b states cfg dt jitter θ 0 0) min_speed cfg.max_speed 0.1 0.1 * dt).x
      = b.x + b.vx * dt
    rw [ev]
    simp only [Vec2.mul_def, Vec2.add_def]
  · rw [he]
    show ((⟨b.x, b.y⟩ : Vec2) + clamp_speed_progressive
      (flockPreVel i b states cfg dt jitter θ 0 0) min_speed cfg.max_speed 0.1 0.1 * dt).y
      = b.y + b.vy * dt
    rw [ev]
    simp only [Vec2.mul_def, Vec2.add_def]
  · rw [he]
    show (clamp_speed_progressive
      (flockPreVel i b states cfg dt jitter θ 0 0) min_speed cfg.max_speed 0.1 0.1).x = b.vx
    rw [ev]
  · rw [he]
    show (clamp_speed_progressive
      (flockPreVel i b states cfg dt jitter θ 0 0) min_speed cfg.max_speed 0.1 0.1).y = b.vy
    rw [ev]

/-- Witness for C7 (amended) at the agent (50, 50) with velocity (3, 4)
(speed 5 within [1, 100]) under `cfgC1`. -/
theorem linear_motion_roundtrip_witness :
    (update_boid_state 0 ⟨50, 50, 3, 4, 0⟩ [⟨50, 50, 3, 4, 0⟩] cfgC1 1 1 0 0 0).x
      = 50 + 3 * 1 ∧
    (update_boid_state 0 ⟨50, 50, 3, 4, 0⟩ [⟨50, 50, 3, 4, 0⟩] cfgC1 1 1 0 0 0).y
      = 50 + 4 * 1 ∧
    (update_boid_state 0 ⟨50, 50, 3, 4, 0⟩ [⟨50, 50, 3, 4, 0⟩] cfgC1 1 1 0 0 0).vx = 3 ∧
    (update_boid_state 0 ⟨50, 50, 3, 4, 0⟩ [⟨50, 50, 3, 4, 0⟩] cfgC1 1 1 0 0 0).vy = 4 :=
  linear_motion_roundtrip 0 ⟨50, 50, 3, 4, 0⟩ [⟨50, 50, 3, 4, 0⟩] cfgC1 1 1 0 0 0
    (by norm_num [cfgC1]) (by norm_num [inMargin, cfgC1]) rfl rfl rfl rfl
    (by show (1:ℝ) ≤ (Vec2.mk 3 4).length; rw [length_three_four]; norm_num)
    (by show (Vec2.mk 3 4).length ≤ cfgC1.max_speed; rw [length_three_four]; norm_num [cfgC1])

/-- C7 counterexample: `create_boids_flat` can produce the agent (5, 50) with
zero velocity; with margin 10 and max force 1 (zero strengths, zero jitter,
dt = 1) the update takes the margin-override path: the new position is
(15, 50) — in bounds — instead of pos + vel · dt = (5, 50), and the new
velocity is (10, 0) instead of (0, 0). -/
theorem linear_motion_roundtrip_cex :
    create_boids_flat 1 0 100 0 100 100 rngC7 = [5, 50, 0, 0] ∧
    (update_boid_state 0 ⟨5, 50, 0, 0, 0⟩ [⟨5, 50, 0, 0, 0⟩] cfgC4 1 0 0 0 0).x = 15 ∧
    (update_boid_state 0 ⟨5, 50, 0, 0, 0⟩ [⟨5, 50, 0, 0, 0⟩] cfgC4 1 0 0 0 0).vx = 10 ∧
    ((0:ℝ) ≤ 15 ∧ (15:ℝ) ≤ 100 ∧ (0:ℝ) ≤ 50 ∧ (50:ℝ) ≤ 100) ∧
    (15:ℝ) ≠ 5 + 0 * 1 ∧ (10:ℝ) ≠ 0 := by
  have hin : inMargin (BoidState.mk 5 50 0 0 0).x (BoidState.mk 5 50 0 0 0).y cfgC4 :=
    Or.inl (by norm_num [cfgC4])
  have hu : update_boid_state 0 ⟨5, 50, 0, 0, 0⟩ [⟨5, 50, 0, 0, 0⟩] cfgC4 1 0 0 0 0 =
      marginOverrideStep ⟨5, 50, 0, 0, 0⟩ cfgC4 1 0 := by
    rw [update_boid_state, if_pos hin]
  have hlen : (Vec2.mk 10 0).length = 10 := Vec2.length_eval (by norm_num) (by norm_num)
  have ev : clamp_speed_progressive (marginPreVel ⟨5, 50, 0, 0, 0⟩ cfgC4 1) 0
      cfgC4.max_speed 0.1 0.1 = ⟨10, 0⟩ := by
    rw [marginPreVel_five]
    exact clamp_speed_progressive_of_mem _ _ _ _ _ (by rw [hlen]; norm_num)
      (by rw [hlen]; norm_num [cfgC4])
  refine ⟨?_, ?_, ?_, by norm_num, by norm_num, by norm_num⟩
  · simp only [create_boids_flat, rngC7]
    norm_num [List.range_succ]
  · rw [hu]
    show ((⟨(5:ℝ), 50⟩ : Vec2) + clamp_speed_progressive
      (marginPreVel ⟨5, 50, 0, 0, 0⟩ cfgC4 1) 0 cfgC4.max_speed 0.1 0.1 * (1:ℝ)).x = 15
    rw [ev]
    simp only [Vec2.mul_def, Vec2.add_def]
    norm_num
  · rw [hu]
    show (clamp_speed_progressive
      (marginPreVel ⟨5, 50, 0, 0, 0⟩ cfgC4 1) 0 cfgC4.max_speed 0.1 0.1).x = 10
    rw [ev]

/-- A flat concatenation of 5-element blocks has length 5 times the number of
blocks. -/
theorem flatMap_five_length {α : Type} (g : α → List ℝ)
    (hg : ∀ a, (g a).length = 5) (l : List α) :
    (l.flatMap g).length = 5 * l.length := by
  induction l with
  | nil => rfl
  | cons a t ih =>
    simp only [List.flatMap_cons, List.length_append, hg a, ih, List.length_cons]
    ring

/-- The i-th 5-element block of a flat concatenation of 5-element blocks. -/
theorem flatMap_five_block {α : Type} (g : α → List ℝ)
    (hg : ∀ a, (g a).length = 5) (d : α) :
    ∀ (l : List α) (i : ℕ), i < l.length →
      ((l.flatMap g).drop (5 * i)).take 5 = g (l.getD i d) := by
  intro l
  induction l with
  | nil => intro i h; simp at h
  | cons a t ih =>
    intro i h
    cases i with
    | zero =>
      simp only [List.flatMap_cons, Nat.mul_zero, List.drop_zero, List.getD_cons_zero]
      rw [← hg a]
      exact List.take_left _ _
    | succ k =>
      rw [List.flatMap_cons, List.getD_cons_succ]
      have h5 : 5 * (k + 1) = (g a).length + 5 * k := by rw [hg a]; ring
      rw [h5, List.drop_append]
      exact ih k (by simpa using h)

/-- Reading the i-th element of a mapped range with a default. -/
theorem getD_map_range {α : Type} [Inhabited α] (f : ℕ → α) (n i : ℕ) (hi : i < n) :
    ((List.range n).map f).getD i default = f i := by
  rw [List.getD_eq_getElem _ _ (by simpa using hi)]
  simp

/-- C5: for every input of length L, `update_boids_flat_impl` returns an
output of length 5 * (L / 4) (a length not a multiple of 4 truncates silently
via integer division), a zero-length input yields a zero-length output with
no error, and agent order and count are preserved: the i-th 5-value output
block is exactly the update of the i-th input agent. -/
theorem flat_impl_shape (boids_data : List ℝ)
    (sr ar cr ss als cs ms mf bm bs ww wh dt minS jit : ℝ) (rngB rngJ : ℕ → ℝ) :
    (update_boids_flat_impl boids_data sr ar cr ss als cs ms mf bm bs ww wh dt minS jit
      rngB rngJ).length = 5 * (boids_data.length / 4) ∧
    (boids_data = [] →
      update_boids_flat_impl boids_data sr ar cr ss als cs ms mf bm bs ww wh dt minS jit
        rngB rngJ = []) ∧
    (∀ i : ℕ, i < boids_data.length / 4 →
      ((update_boids_flat_impl boids_data sr ar cr ss als cs ms mf bm bs ww wh dt minS jit
        rngB rngJ).drop (5 * i)).take 5 =
        [(update_boid_state i ((mkStates boids_data).getD i default) (mkStates boids_data)
            ⟨sr, ar, cr, ss, als, cs, ms, mf, bm, bs, ww, wh⟩ dt minS jit (rngB i) (rngJ i)).x,
         (update_boid_state i ((mkStates boids_data).getD i default) (mkStates boids_data)
            ⟨sr, ar, cr, ss, als, cs, ms, mf, bm, bs, ww, wh⟩ dt minS jit (rngB i) (rngJ i)).y,
         (update_boid_state i ((mkStates boids_data).getD i default) (mkStates boids_data)
            ⟨sr, ar, cr, ss, als, cs, ms, mf, bm, bs, ww, wh⟩ dt minS jit (rngB i) (rngJ i)).vx,
         (update_boid_state i ((mkStates boids_data).getD i default) (mkStates boids_data)
            ⟨sr, ar, cr, ss, als, cs, ms, mf, bm, bs, ww, wh⟩ dt minS jit (rngB i) (rngJ i)).vy,
         ((update_boid_state i ((mkStates boids_data).getD i default) (mkStates boids_data)
            ⟨sr, ar, cr, ss, als, cs, ms, mf, bm, bs, ww, wh⟩ dt minS jit (rngB i) (rngJ i)).flags
           : ℝ)]) := by
  have hg : ∀ s : BoidState, ([s.x, s.y, s.vx, s.vy, (s.flags : ℝ)]).length = 5 :=
    fun _ => rfl
  by_cases h0 : boids_data.length / 4 = 0
  · have himpl : update_boids_flat_impl boids_data sr ar cr ss als cs ms mf bm bs ww wh dt
        minS jit rngB rngJ = [] := by
      rw [update_boids_flat_impl, if_pos h0]
    refine ⟨by rw [himpl, h0]; rfl, fun _ => himpl, ?_⟩
    intro i hi
    rw [h0] at hi
    exact absurd hi (Nat.not_lt_zero i)
  · have himpl : update_boids_flat_impl boids_data sr ar cr ss als cs ms mf bm bs ww wh dt
        minS jit rngB rngJ =
        ((List.range (boids_data.length / 4)).map fun i =>
          update_boid_state i ((mkStates boids_data).getD i default) (mkStates boids_data)
            ⟨sr, ar, cr, ss, als, cs, ms, mf, bm, bs, ww, wh⟩ dt minS jit (rngB i)
            (rngJ i)).flatMap
          fun s => [s.x, s.y, s.vx, s.vy, (s.flags : ℝ)] := by
      simp only [update_boids_flat_impl, if_neg h0]
    refine ⟨?_, fun he => absurd (by rw [he]; rfl) h0, ?_⟩
    · rw [himpl, flatMap_five_length _ hg, List.length_map, List.length_range]
    · intro i hi
      rw [himpl, flatMap_five_block _ hg default _ i (by simpa using hi),
        getD_map_range _ _ i hi]

/-- Witness for C5: a 5-float input truncates to one agent (5 output floats),
an empty input gives an empty output, and the single output block is the
update of the single input agent. -/
theorem flat_impl_shape_witness :
    (update_boids_flat_impl [1, 2, 3, 4, 5] 0 0 0 0 0 0 100 0 5 0 100 100 1 0 0
      (fun _ => 0) (fun _ => 0)).length = 5 * ([(1:ℝ), 2, 3, 4, 5].length / 4) ∧
    update_boids_flat_impl [] 0 0 0 0 0 0 100 0 5 0 100 100 1 0 0
      (fun _ => 0) (fun _ => 0) = [] ∧
    ((update_boids_flat_impl [1, 2, 3, 4, 5] 0 0 0 0 0 0 100 0 5 0 100 100 1 0 0
      (fun _ => 0) (fun _ => 0)).drop (5 * 0)).take 5 =
      [(update_boid_state 0 ((mkStates [1, 2, 3, 4, 5]).getD 0 default)
          (mkStates [1, 2, 3, 4, 5]) ⟨0, 0, 0, 0, 0, 0, 100, 0, 5, 0, 100, 100⟩ 1 0 0 0 0).x,
       (update_boid_state 0 ((mkStates [1, 2, 3, 4, 5]).getD 0 default)
          (mkStates [1, 2, 3, 4, 5]) ⟨0, 0, 0, 0, 0, 0, 100, 0, 5, 0, 100, 100⟩ 1 0 0 0 0).y,
       (update_boid_state 0 ((mkStates [1, 2, 3, 4, 5]).getD 0 default)
          (mkStates [1, 2, 3, 4, 5]) ⟨0, 0, 0, 0, 0, 0, 100, 0, 5, 0, 100, 100⟩ 1 0 0 0 0).vx,
       (update_boid_state 0 ((mkStates [1, 2, 3, 4, 5]).getD 0 default)
          (mkStates [1, 2, 3, 4, 5]) ⟨0, 0, 0, 0, 0, 0, 100, 0, 5, 0, 100, 100⟩ 1 0 0 0 0).vy,
       ((update_boid_state 0 ((mkStates [1, 2, 3, 4, 5]).getD 0 default)
          (mkStates [1, 2, 3, 4, 5]) ⟨0, 0, 0, 0, 0, 0, 100, 0, 5, 0, 100, 100⟩ 1 0 0 0 0).flags
         : ℝ)] :=
  ⟨(flat_impl_shape [1, 2, 3, 4, 5] 0 0 0 0 0 0 100 0 5 0 100 100 1 0 0
      (fun _ => 0) (fun _ => 0)).1,
   (flat_impl_shape [] 0 0 0 0 0 0 100 0 5 0 100 100 1 0 0
      (fun _ => 0) (fun _ => 0)).2.1 rfl,
   (flat_impl_shape [1, 2, 3, 4, 5] 0 0 0 0 0 0 100 0 5 0 100 100 1 0 0
      (fun _ => 0) (fun _ => 0)).2.2 0 (by norm_num)⟩

/-- Witness for C10 at the concrete bounds [3, 7]. -/
theorem clamp_zero_vector_witness :
    clamp_speed_progressive ⟨0, 0⟩ 3 7 0.1 0.1 = ⟨0, 0⟩ :=
  clamp_zero_vector 3 7 0.1 0.1
